import Mathlib

/-!
Verification of `pf/accounting.py` (daily cashflow aggregation and cashflow
statement) against its natural-language specification.

The embedding models:
  * a transaction as a dated, categorized, labeled, signed amount
    (time-of-day is discarded by the code's `groupby(lambda x: x.date())`,
    so dates are modelled directly as integer day numbers);
  * the 3-level taxonomy (`category_dict`) as a nested association list;
    Python dicts have unique keys, which theorems assume via `Nodup`
    hypotheses where relevant;
  * the per-leaf filtered amount series, the groupby-date sum, the
    date-range index built from `transactions.index[-1]` to
    `transactions.index[0]`, and the NaN-fill with `0.0`;
  * fallible steps (`KeyError` on a missing `categories` key, the
    `TypeError` raised by `pd.MultiIndex.from_tuples([])` on an empty
    column list, the `IndexError` of `transactions.index[-1]` on an empty
    collection, and the `NameError` in `cashflow_statement`) as `Except`.
-/

/-- A transaction: calendar date (integer day number, time-of-day already
discarded), category string, set of labels, signed amount (`float` amounts
are modelled as exact rationals). -/
structure Transaction where
  date : Int
  category : String
  labels : Finset String
  amount : Rat
deriving DecidableEq

/-- A leaf rule as supplied by the caller: `categories` is required by the
code (read via `v2['categories']`, a `KeyError` if absent), while `labels`
and `logic` are optional keys that the normalization loop fills in.
`logic` is a Python string whose truthiness selects inverted matching
(the docstring uses the string `"not"`); falsy `""` is normal matching. -/
structure RawLeafRule where
  categories : Option (Finset String)
  labels : Option (Finset String)
  logic : Option String
deriving DecidableEq

/-- The 3-level `category_dict`: direction -> class -> leafName -> rule. -/
abbrev Taxonomy := List (String × List (String × List (String × RawLeafRule)))

/-- A leaf column key `(direction, class, leafName)`. -/
abbrev LeafKey := String × String × String

/-- Normalization of one leaf rule, as done in place by the loop at the top
of `calc_cashflow`: add `labels = set()` when the key is absent and
`logic = ''` when the key is absent; `categories` is never touched. -/
def normalizeRule (r : RawLeafRule) : RawLeafRule :=
  { categories := r.categories
    labels := some (r.labels.getD ∅)
    logic := some (r.logic.getD "") }

/-- The normalization pass over the whole taxonomy (the triple-nested
`iteritems` loop): every leaf rule is normalized, keys are untouched. -/
def normalize_taxonomy (tax : Taxonomy) : Taxonomy :=
  tax.map fun p => (p.1, p.2.map fun q => (q.1, q.2.map fun s => (s.1, normalizeRule s.2)))

/-- Leaves of the middle level under a fixed direction key. -/
def leavesL1 (k0 : String) : List (String × List (String × RawLeafRule)) → List (LeafKey × RawLeafRule)
  | [] => []
  | (k1, v1) :: rest => (v1.map fun s => ((k0, k1, s.1), s.2)) ++ leavesL1 k0 rest

/-- All leaves of a taxonomy with their full 3-tuple keys, in iteration
order (the order of the triple dictionary comprehension). -/
def leaves : Taxonomy → List (LeafKey × RawLeafRule)
  | [] => []
  | (k0, v0) :: rest => leavesL1 k0 v0 ++ leaves rest

/-- Python `x.isdisjoint(y)` on sets. -/
def isdisjoint (x y : Finset String) : Bool :=
  decide (x ∩ y = ∅)

/-- The label filter applied per transaction inside the comprehension:
`(x.isdisjoint(labels) if logic else not x.isdisjoint(labels)) or labels == set()`
where `x` is the transaction's label set, `labels`/`logic` the rule's. -/
def labelFilter (rlabels : Finset String) (logic : String) (x : Finset String) : Bool :=
  (if logic = "" then !(isdisjoint x rlabels) else isdisjoint x rlabels)
    || decide (rlabels = ∅)

/-- The whole row filter of the comprehension: category membership
(`transactions['category'].isin(v2['categories'])`) conjoined with the
label filter. (Callers only apply this when `categories` is present;
`getD ∅` is then the identity.) -/
def matchesRule (r : RawLeafRule) (t : Transaction) : Bool :=
  decide (t.category ∈ r.categories.getD ∅)
    && labelFilter (r.labels.getD ∅) (r.logic.getD "") t.labels

/-- The filtered `(date, amount)` series of one leaf: the `amount` column of
the transactions passing the leaf's row filter, keyed by date. -/
def leafData (ts : List Transaction) (r : RawLeafRule) : List (Int × Rat) :=
  (ts.filter (matchesRule r)).map fun t => (t.date, t.amount)

/-- One leaf's series as computed inside the dict comprehension: reading
`v2['categories']` raises a `KeyError` when the key is absent, otherwise
the filtered amounts are produced. -/
def leafSeries (ts : List Transaction) (r : RawLeafRule) : Except String (List (Int × Rat)) :=
  match r.categories with
  | none => .error "KeyError: categories"
  | some _ => .ok (leafData ts r)

/-- `c.groupby(lambda x: x.date()).sum()`: one `(date, sum-of-amounts)` pair
per distinct date occurring in the series. -/
def groupByDateSum (l : List (Int × Rat)) : List (Int × Rat) :=
  (l.map Prod.fst).dedup.map fun d =>
    (d, ((l.filter fun p => decide (p.1 = d)).map Prod.snd).sum)

/-- First-match association-list lookup for integer-keyed series. -/
def ilookup {A : Type} : List (Int × A) → Int → Option A
  | [], _ => none
  | (k, v) :: rest, d => if k = d then some v else ilookup rest d

/-- First-match association-list lookup for leaf-keyed columns. -/
def alookup {A : Type} : List (LeafKey × A) → LeafKey → Option A
  | [], _ => none
  | (k, v) :: rest, L => if k = L then some v else alookup rest L

/-- Reading a cell from a grouped series after alignment and
`fillna(0.0)`: the date's group sum when present, `0.0` otherwise. -/
def seriesLookup (g : List (Int × Rat)) (d : Int) : Rat :=
  (ilookup g d).getD 0

/-- The dict comprehension over all leaves: evaluates each leaf's series in
order, propagating the first exception (Python evaluates the whole
comprehension before anything else in the function body). -/
def collectSeries (ts : List Transaction) :
    List (LeafKey × RawLeafRule) → Except String (List (LeafKey × List (Int × Rat)))
  | [] => .ok []
  | p :: rest =>
    match leafSeries ts p.2 with
    | .error e => .error e
    | .ok s =>
      match collectSeries ts rest with
      | .error e => .error e
      | .ok restS => .ok ((p.1, groupByDateSum s) :: restS)

/-- `pd.date_range(a, b)` at day granularity: the integers from `a` to `b`
inclusive, empty when `a > b`. -/
def dateRange (a b : Int) : List Int :=
  (List.range (b - a + 1).toNat).map fun i : Nat => a + (i : Int)

/-- `transactions.index[0]`: the date of the first supplied transaction. -/
def firstDate : List Transaction → Int
  | [] => 0
  | t :: _ => t.date

/-- `transactions.index[-1]`: the date of the last supplied transaction. -/
def lastDate : List Transaction → Int
  | [] => 0
  | [t] => t.date
  | _ :: rest => lastDate rest

/-- The table's row index,
`pd.date_range(transactions.index[-1], transactions.index[0])`. -/
def tableIndex (ts : List Transaction) : List Int :=
  dateRange (lastDate ts) (firstDate ts)

/-- Lexicographic order on leaf keys used by `cols.sort()`. -/
def keyLE (a b : LeafKey) : Bool :=
  match compare a.1 b.1 with
  | .lt => true
  | .gt => false
  | .eq =>
    match compare a.2.1 b.2.1 with
    | .lt => true
    | .gt => false
    | .eq =>
      match compare a.2.2 b.2.2 with
      | .gt => false
      | _ => true

/-- Insertion step of the column sort. -/
def insertKey (a : LeafKey) : List LeafKey → List LeafKey
  | [] => [a]
  | b :: rest => if keyLE a b then a :: b :: rest else b :: insertKey a rest

/-- `cols.sort()`: insertion sort by the lexicographic key order. -/
def sortKeys : List LeafKey → List LeafKey
  | [] => []
  | a :: rest => insertKey a (sortKeys rest)

/-- The Daily Cashflow Table: a date index, the sorted leaf columns, and the
cell contents. `cell` is only meaningful on `index` × `cols`; pandas cells
outside the table do not exist. -/
structure CashflowTable where
  index : List Int
  cols : List LeafKey
  cell : Int → LeafKey → Rat

/-- `calc_cashflow(transactions, category_dict)`: normalize the taxonomy in
place, build every leaf's filtered series (a `KeyError` surfaces here when
a leaf lacks `categories`), then assemble the DataFrame.
`pd.MultiIndex.from_tuples([])` raises a `TypeError` when there are no
columns, and `transactions.index[-1]` raises an `IndexError` on an empty
collection; otherwise the index is the day range from the last
transaction's date to the first's, each leaf column is its grouped sums
aligned on that index, and missing cells become `0.0` via `fillna`. -/
def calc_cashflow (transactions : List Transaction) (category_dict : Taxonomy) :
    Except String CashflowTable :=
  match collectSeries transactions (leaves (normalize_taxonomy category_dict)) with
  | .error e => .error e
  | .ok series =>
    if series.isEmpty then
      .error "TypeError: Cannot infer number of levels from empty list"
    else
      match transactions with
      | [] => .error "IndexError: index 0 is out of bounds"
      | _ :: _ =>
        .ok { index := tableIndex transactions
              cols := sortKeys (series.map Prod.fst)
              cell := fun d L => seriesLookup ((alookup series L).getD []) d }

/-- Names in scope at the first statement of `cashflow_statement`'s body:
the module-level bindings and the function's parameters. The body's first
statement reads the name `cashflow_dict`, which is not among them. -/
def cashflow_statement_scope : List String :=
  ["pd", "calc_cashflow", "cashflow_statement", "cashflow", "period"]

/-- `cashflow_statement(cashflow, period)`: coerces `period` to a string,
then its first statement evaluates `pd.DataFrame(cashflow_dict, ...)`.
The name `cashflow_dict` is bound nowhere in the function or module (the
parameter is named `cashflow`), so name resolution fails with a
`NameError` before any Net row, percentage or total is computed. The
`true` branch is unreachable: there is no binding whose value the rest of
the body could use (its placeholder value is irrelevant to every
theorem). -/
def cashflow_statement (cashflow : List (LeafKey × Rat)) (period : String) :
    Except String (List (LeafKey × Rat × Rat)) :=
  let _periodStr := period
  if "cashflow_dict" ∈ cashflow_statement_scope then
    .ok []
  else
    .error "NameError: name cashflow_dict is not defined"

/-- Specification-side description of one cell: the sum of the amounts of
exactly those transactions dated `d` that pass rule `r`'s row filter. -/
def matchSum (ts : List Transaction) (r : RawLeafRule) (d : Int) : Rat :=
  ((ts.filter fun t => decide (t.date = d) && matchesRule r t).map Transaction.amount).sum

/-- The successful value of the dict comprehension: every leaf key paired
with its grouped per-date sums. -/
def builtSeries (ts : List Transaction) (tax : Taxonomy) : List (LeafKey × List (Int × Rat)) :=
  (leaves (normalize_taxonomy tax)).map fun p => (p.1, groupByDateSum (leafData ts p.2))

lemma normalizeRule_idem (r : RawLeafRule) : normalizeRule (normalizeRule r) = normalizeRule r := by
  simp [normalizeRule]

lemma leavesL1_map_normalize (k0 : String) (v0 : List (String × List (String × RawLeafRule))) :
    leavesL1 k0 (v0.map fun q => (q.1, q.2.map fun s => (s.1, normalizeRule s.2))) =
      (leavesL1 k0 v0).map fun p => (p.1, normalizeRule p.2) := by
  induction v0 with
  | nil => simp [leavesL1]
  | cons q rest ih =>
    simp [leavesL1, ih, List.map_map, Function.comp_def]

/-- Normalization rewrites every leaf rule in place and nothing else. -/
lemma leaves_normalize (tax : Taxonomy) :
    leaves (normalize_taxonomy tax) = (leaves tax).map fun p => (p.1, normalizeRule p.2) := by
  induction tax with
  | nil => simp [normalize_taxonomy, leaves]
  | cons p rest ih =>
    simp only [normalize_taxonomy, List.map_cons] at *
    simp [leaves, leavesL1_map_normalize, ih]

lemma matchesRule_normalizeRule (r : RawLeafRule) (t : Transaction) :
    matchesRule (normalizeRule r) t = matchesRule r t := by
  simp [matchesRule, normalizeRule]

lemma ilookup_map_self_mem (ks : List Int) (f : Int → Rat) (d : Int) (h : d ∈ ks) :
    ilookup (ks.map fun k => (k, f k)) d = some (f d) := by
  induction ks with
  | nil => cases h
  | cons k rest ih =>
    by_cases hk : k = d
    · subst hk; simp [ilookup]
    · rcases List.mem_cons.mp h with h1 | h2
      · exact absurd h1.symm hk
      · simp [ilookup, hk, ih h2]

lemma ilookup_map_self_not_mem (ks : List Int) (f : Int → Rat) (d : Int) (h : d ∉ ks) :
    ilookup (ks.map fun k => (k, f k)) d = none := by
  induction ks with
  | nil => simp [ilookup]
  | cons k rest ih =>
    have hk : k ≠ d := fun he => h (he ▸ List.mem_cons_self k rest)
    have hrest : d ∉ rest := fun hm => h (List.mem_cons_of_mem _ hm)
    simp [ilookup, hk, ih hrest]

/-- Reading a grouped series at any date gives the sum of the values at
that date (zero when the date never occurs). -/
lemma seriesLookup_groupByDateSum (l : List (Int × Rat)) (d : Int) :
    seriesLookup (groupByDateSum l) d = ((l.filter fun p => decide (p.1 = d)).map Prod.snd).sum := by
  unfold seriesLookup groupByDateSum
  by_cases h : d ∈ (l.map Prod.fst).dedup
  · rw [ilookup_map_self_mem _ _ _ h]
    rfl
  · rw [ilookup_map_self_not_mem _ _ _ h]
    have hf : l.filter (fun p => decide (p.1 = d)) = [] := by
      rw [List.filter_eq_nil_iff]
      intro p hp hpd
      have : p.1 ∈ l.map Prod.fst := List.mem_map_of_mem _ hp
      rw [List.mem_dedup] at h
      simp only [decide_eq_true_eq] at hpd
      exact h (hpd ▸ this)
    rw [hf]
    simp

lemma alookup_map_of_nodup {A B : Type} (l : List (LeafKey × A)) (g : LeafKey → A → B)
    (L : LeafKey) (a : A) (hnd : (l.map Prod.fst).Nodup) (hm : (L, a) ∈ l) :
    alookup (l.map fun p => (p.1, g p.1 p.2)) L = some (g L a) := by
  induction l with
  | nil => cases hm
  | cons p rest ih =>
    rw [List.map_cons] at hnd
    have hnd1 : p.1 ∉ rest.map Prod.fst := (List.nodup_cons.mp hnd).1
    have hnd2 : (rest.map Prod.fst).Nodup := (List.nodup_cons.mp hnd).2
    by_cases hk : p.1 = L
    · rcases List.mem_cons.mp hm with h1 | h2
      · subst h1
        simp [alookup]
      · exfalso
        have : L ∈ rest.map Prod.fst := List.mem_map_of_mem Prod.fst h2
        exact hnd1 (hk ▸ this)
    · rcases List.mem_cons.mp hm with h1 | h2
      · exact absurd (congrArg Prod.fst h1).symm hk
      · simp [alookup, hk, ih hnd2 h2]

/-- The comprehension succeeds and returns every leaf's grouped series when
every leaf carries a `categories` key. -/
lemma collectSeries_eq (ts : List Transaction) (lvs : List (LeafKey × RawLeafRule))
    (h : ∀ p ∈ lvs, p.2.categories ≠ none) :
    collectSeries ts lvs = .ok (lvs.map fun p => (p.1, groupByDateSum (leafData ts p.2))) := by
  induction lvs with
  | nil => simp [collectSeries]
  | cons p rest ih =>
    have hp : p.2.categories ≠ none := h p (List.mem_cons_self p rest)
    obtain ⟨c, hc⟩ := Option.ne_none_iff_exists'.mp hp
    have hrest : ∀ q ∈ rest, q.2.categories ≠ none := fun q hq => h q (List.mem_cons_of_mem _ hq)
    simp [collectSeries, leafSeries, hc, ih hrest]

/-- The comprehension raises the `KeyError` whenever some leaf lacks
`categories`, whatever the transactions are. -/
lemma collectSeries_error (ts : List Transaction) (lvs : List (LeafKey × RawLeafRule))
    (h : ∃ p ∈ lvs, p.2.categories = none) :
    collectSeries ts lvs = .error "KeyError: categories" := by
  induction lvs with
  | nil => obtain ⟨p, hp, _⟩ := h; cases hp
  | cons p rest ih =>
    by_cases hp : p.2.categories = none
    · simp [collectSeries, leafSeries, hp]
    · obtain ⟨q, hq, hqc⟩ := h
      rcases List.mem_cons.mp hq with h1 | h2
      · exact absurd (h1 ▸ hqc) hp
      · obtain ⟨c, hc⟩ := Option.ne_none_iff_exists'.mp hp
        simp [collectSeries, leafSeries, hc, ih ⟨q, h2, hqc⟩]

lemma alookup_map_val {A B : Type} (l : List (LeafKey × A)) (f : LeafKey × A → B)
    (L : LeafKey) (a : A) (hnd : (l.map Prod.fst).Nodup) (hm : (L, a) ∈ l) :
    alookup (l.map fun p => (p.1, f p)) L = some (f (L, a)) := by
  induction l with
  | nil => cases hm
  | cons p rest ih =>
    rw [List.map_cons] at hnd
    have hnd1 : p.1 ∉ rest.map Prod.fst := (List.nodup_cons.mp hnd).1
    have hnd2 : (rest.map Prod.fst).Nodup := (List.nodup_cons.mp hnd).2
    by_cases hk : p.1 = L
    · rcases List.mem_cons.mp hm with h1 | h2
      · subst h1
        simp [alookup]
      · exfalso
        have : L ∈ rest.map Prod.fst := List.mem_map_of_mem Prod.fst h2
        exact hnd1 (hk ▸ this)
    · rcases List.mem_cons.mp hm with h1 | h2
      · exact absurd (congrArg Prod.fst h1).symm hk
      · simp [alookup, hk, ih hnd2 h2]

/-- On the success path `calc_cashflow` returns the table whose index is the
day range from the last transaction to the first, whose columns are the
sorted leaf keys, and whose cells read the aligned, zero-filled grouped
series. -/
lemma calc_cashflow_eq_ok (ts : List Transaction) (tax : Taxonomy)
    (hts : ts ≠ []) (hlvs : leaves tax ≠ [])
    (hcats : ∀ p ∈ leaves tax, p.2.categories ≠ none) :
    calc_cashflow ts tax = .ok
      { index := tableIndex ts
        cols := sortKeys ((builtSeries ts tax).map Prod.fst)
        cell := fun d L => seriesLookup ((alookup (builtSeries ts tax) L).getD []) d } := by
  have hcats2 : ∀ p ∈ leaves (normalize_taxonomy tax), p.2.categories ≠ none := by
    intro p hp
    rw [leaves_normalize] at hp
    obtain ⟨q, hq, rfl⟩ := List.mem_map.mp hp
    simpa [normalizeRule] using hcats q hq
  have hcol : collectSeries ts (leaves (normalize_taxonomy tax)) = .ok (builtSeries ts tax) :=
    collectSeries_eq ts _ hcats2
  unfold calc_cashflow
  rw [hcol]
  have hne : (builtSeries ts tax).isEmpty = false := by
    unfold builtSeries
    rw [leaves_normalize]
    cases h : leaves tax with
    | nil => exact absurd h hlvs
    | cons a l => simp
  cases ts with
  | nil => exact absurd rfl hts
  | cons t rest =>
    dsimp only
    rw [hne]
    rfl

/-- A cell read through the grouped, aligned, zero-filled column equals the
direct sum of the matching transactions dated `d`. -/
lemma cell_eq_matchSum (ts : List Transaction) (tax : Taxonomy) (L : LeafKey)
    (r : RawLeafRule) (d : Int)
    (hnd : ((leaves tax).map Prod.fst).Nodup)
    (hL : (L, r) ∈ leaves tax) :
    seriesLookup ((alookup (builtSeries ts tax) L).getD []) d = matchSum ts r d := by
  have hbs : builtSeries ts tax =
      (leaves tax).map fun p => (p.1, groupByDateSum (leafData ts (normalizeRule p.2))) := by
    unfold builtSeries
    rw [leaves_normalize, List.map_map]
    rfl
  have hlk : alookup ((leaves tax).map fun p =>
        (p.1, groupByDateSum (leafData ts (normalizeRule p.2)))) L =
      some (groupByDateSum (leafData ts (normalizeRule r))) :=
    alookup_map_val (leaves tax) (fun p => groupByDateSum (leafData ts (normalizeRule p.2)))
      L r hnd hL
  rw [hbs, hlk]
  have hld : leafData ts (normalizeRule r) = leafData ts r := by
    unfold leafData
    rw [List.filter_congr fun t _ => matchesRule_normalizeRule r t]
  simp only [Option.getD_some]
  rw [seriesLookup_groupByDateSum, hld]
  unfold leafData matchSum
  rw [List.filter_map, List.map_map, List.filter_filter]
  rfl

lemma mem_dateRange (a b d : Int) : d ∈ dateRange a b ↔ a ≤ d ∧ d ≤ b := by
  unfold dateRange
  rw [List.mem_map]
  constructor
  · rintro ⟨i, hi, rfl⟩
    rw [List.mem_range] at hi
    omega
  · rintro ⟨h1, h2⟩
    refine ⟨(d - a).toNat, ?_, ?_⟩
    · rw [List.mem_range]
      omega
    · omega

/-- A leaf rule with only the required `categories` field, as in the
minimal documented shape. -/
def payRule : RawLeafRule :=
  { categories := some {"Paycheck"}, labels := none, logic := none }

/-- The leaf rule of the label-logic scenario under normal logic. -/
def normRule : RawLeafRule :=
  { categories := some {"Grocery"}, labels := some {"Shared"}, logic := none }

/-- The same rule with inverted (truthy) logic. -/
def invRule : RawLeafRule :=
  { categories := some {"Grocery"}, labels := some {"Shared"}, logic := some "not" }

def sharedTxn : Transaction :=
  { date := 0, category := "Grocery", labels := {"Shared"}, amount := -50 }

def otherTxn : Transaction :=
  { date := 0, category := "Grocery", labels := {"Other"}, amount := -30 }

def emptyLabelTxn : Transaction :=
  { date := 0, category := "Grocery", labels := ∅, amount := -10 }

/-- C1: whenever `calc_cashflow` succeeds (non-empty transaction collection,
at least one leaf, every leaf carrying `categories`, leaf keys distinct as
they necessarily are for a Python dict), the cell at any date `d` of the
table's index and any leaf `L` with rule `r` equals the sum of the amounts
of exactly those transactions dated `d` that pass both `r`'s category
filter and `r`'s label filter. -/
theorem calc_cashflow_cell_sum (ts : List Transaction) (tax : Taxonomy)
    (L : LeafKey) (r : RawLeafRule) (d : Int)
    (hts : ts ≠ [])
    (hcats : ∀ p ∈ leaves tax, p.2.categories ≠ none)
    (hnd : ((leaves tax).map Prod.fst).Nodup)
    (hL : (L, r) ∈ leaves tax)
    (hd : d ∈ tableIndex ts) :
    (calc_cashflow ts tax).map (fun tbl => tbl.cell d L) = .ok (matchSum ts r d) := by
  have hlvs : leaves tax ≠ [] := List.ne_nil_of_mem hL
  rw [calc_cashflow_eq_ok ts tax hts hlvs hcats]
  simp only [Except.map]
  rw [cell_eq_matchSum ts tax L r d hnd hL]

def w1ts : List Transaction :=
  [{ date := 1, category := "Paycheck", labels := ∅, amount := 100 }]

def w1tax : Taxonomy := [("Inflow", [("Operating", [("Salary", payRule)])])]

/-- Witness for C1 at a concrete one-transaction input. -/
theorem calc_cashflow_cell_sum_witness :
    (calc_cashflow w1ts w1tax).map (fun tbl => tbl.cell 1 ("Inflow", "Operating", "Salary")) =
      .ok (matchSum w1ts payRule 1) :=
  calc_cashflow_cell_sum w1ts w1tax ("Inflow", "Operating", "Salary") payRule 1
    (by decide) (by decide) (by decide) (by decide) (by decide)

/-- C2: for every rule and every transaction passing the category filter,
the row filter passes iff the rule's label set is empty, or the logic is
normal (the falsy default `""`) and the transaction's labels intersect the
rule's, or the logic is inverted (truthy, e.g. `"not"`) and they are
disjoint. Concretely, under inverted logic with rule labels `{"Shared"}`,
the `{"Shared"}`-labeled transaction is excluded and the
`{"Other"}`-labeled transaction is included. -/
theorem label_logic_iff :
    (∀ (r : RawLeafRule) (t : Transaction), t.category ∈ r.categories.getD ∅ →
      (matchesRule r t = true ↔
        (r.labels.getD ∅ = ∅
          ∨ (r.logic.getD "" = "" ∧ ¬ Disjoint t.labels (r.labels.getD ∅))
          ∨ (r.logic.getD "" ≠ "" ∧ Disjoint t.labels (r.labels.getD ∅)))))
    ∧ matchesRule invRule sharedTxn = false
    ∧ matchesRule invRule otherTxn = true := by
  refine ⟨?_, by decide, by decide⟩
  intro r t hcat
  unfold matchesRule labelFilter isdisjoint
  rw [Finset.disjoint_iff_inter_eq_empty]
  by_cases hlog : r.logic.getD "" = "" <;>
    by_cases hdis : t.labels ∩ r.labels.getD ∅ = ∅ <;>
      simp [hcat, hlog, hdis]

/-- Witness for C2: the category-filter hypothesis holds at the concrete
inverted-logic rule and `{"Other"}`-labeled transaction. -/
theorem label_logic_iff_witness :
    "Grocery" ∈ (invRule.categories.getD ∅)
    ∧ (matchesRule invRule otherTxn = true ↔
        (invRule.labels.getD ∅ = ∅
          ∨ (invRule.logic.getD "" = "" ∧ ¬ Disjoint otherTxn.labels (invRule.labels.getD ∅))
          ∨ (invRule.logic.getD "" ≠ "" ∧ Disjoint otherTxn.labels (invRule.labels.getD ∅)))) :=
  ⟨by decide, label_logic_iff.1 invRule otherTxn (by decide)⟩

/-- C3: every call of `cashflow_statement` fails with the `NameError` on the
unbound name `cashflow_dict` (the parameter is named `cashflow`), so no
Net row, percentage or total is ever computed. -/
theorem cashflow_statement_always_name_error
    (cashflow2 : List (LeafKey × Rat)) (period : String) :
    cashflow_statement cashflow2 period =
      .error "NameError: name cashflow_dict is not defined" := rfl

/-- C4: the empty-input calls raise instead of returning well-formed empty
outputs: `calc_cashflow([], {})` fails while building
`pd.MultiIndex.from_tuples([])` from the empty column list, and
`cashflow_statement([], "2020")` fails with the `NameError`. -/
theorem empty_inputs_raise :
    calc_cashflow [] [] = .error "TypeError: Cannot infer number of levels from empty list"
    ∧ cashflow_statement [] "2020" = .error "NameError: name cashflow_dict is not defined" :=
  ⟨rfl, rfl⟩

def c5ts : List Transaction :=
  [{ date := 0, category := "Paycheck", labels := ∅, amount := 10 },
   { date := 1, category := "Paycheck", labels := ∅, amount := 20 }]

def c5tax : Taxonomy := [("Inflow", [("Operating", [("Salary", payRule)])])]

/-- C5 counterexample: two transactions supplied in ascending date order
(date 0 first, date 1 last). The claimed range [earliest, latest] is
[0, 1], but `pd.date_range(transactions.index[-1], transactions.index[0])`
runs from date 1 down to date 0 and is empty, so the returned table has no
row at all for dates 0 and 1: coverage depends on the supplied order. -/
theorem ascending_transactions_empty_index :
    (calc_cashflow c5ts c5tax).map CashflowTable.index = .ok ([] : List Int) := by
  rfl

/-- C5 amended: the table's row index is the calendar range from the LAST
supplied transaction's date to the FIRST supplied transaction's date
(inclusive; empty when the last date exceeds the first, i.e. the full
earliest-to-latest range exactly when transactions are supplied
newest-first), and any (date, leaf) cell with no matching transaction
holds 0.0. -/
theorem calc_cashflow_index_characterization (ts : List Transaction) (tax : Taxonomy)
    (L : LeafKey) (r : RawLeafRule) (d : Int)
    (hts : ts ≠ [])
    (hcats : ∀ p ∈ leaves tax, p.2.categories ≠ none)
    (hnd : ((leaves tax).map Prod.fst).Nodup)
    (hL : (L, r) ∈ leaves tax)
    (hnomatch : ∀ t ∈ ts, t.date = d → matchesRule r t = false) :
    (calc_cashflow ts tax).map CashflowTable.index = .ok (tableIndex ts)
    ∧ (d ∈ tableIndex ts ↔ lastDate ts ≤ d ∧ d ≤ firstDate ts)
    ∧ (calc_cashflow ts tax).map (fun tbl => tbl.cell d L) = .ok 0 := by
  have hlvs : leaves tax ≠ [] := List.ne_nil_of_mem hL
  refine ⟨?_, ?_, ?_⟩
  · rw [calc_cashflow_eq_ok ts tax hts hlvs hcats]
    rfl
  · unfold tableIndex
    exact mem_dateRange _ _ _
  · rw [calc_cashflow_eq_ok ts tax hts hlvs hcats]
    simp only [Except.map]
    rw [cell_eq_matchSum ts tax L r d hnd hL]
    unfold matchSum
    have hfil : ts.filter (fun t => decide (t.date = d) && matchesRule r t) = [] := by
      rw [List.filter_eq_nil_iff]
      intro t ht
      simp only [Bool.and_eq_true, decide_eq_true_eq, not_and]
      intro h1
      rw [hnomatch t ht h1]
      simp
    rw [hfil]
    rfl

def w5ts : List Transaction :=
  [{ date := 1, category := "Paycheck", labels := ∅, amount := 20 },
   { date := 0, category := "Grocery", labels := ∅, amount := -10 }]

/-- Witness for C5's amended statement at a concrete newest-first input and
a date with no matching transactions. -/
theorem calc_cashflow_index_characterization_witness :
    ((calc_cashflow w5ts c5tax).map CashflowTable.index = .ok (tableIndex w5ts))
    ∧ ((5 : Int) ∈ tableIndex w5ts ↔ lastDate w5ts ≤ 5 ∧ (5 : Int) ≤ firstDate w5ts)
    ∧ ((calc_cashflow w5ts c5tax).map (fun tbl => tbl.cell 5 ("Inflow", "Operating", "Salary")) =
        .ok 0) :=
  calc_cashflow_index_characterization w5ts c5tax ("Inflow", "Operating", "Salary") payRule 5
    (by decide) (by decide) (by decide) (by decide) (by decide)

def c6tax : Taxonomy := [("Outflow", [("Operating", [("Food", normRule)])])]

def c6ts : List Transaction := [sharedTxn, otherTxn, emptyLabelTxn]

/-- The date-0 bucket of the label-logic scenario holds exactly the
`{"Shared"}`-labeled transaction's amount. -/
lemma c6_cell_value :
    (calc_cashflow c6ts c6tax).map (fun tbl => tbl.cell 0 ("Outflow", "Operating", "Food")) =
      .ok (-50 : Rat) := by
  rw [calc_cashflow_eq_ok c6ts c6tax (by decide) (by decide) (by decide)]
  simp only [Except.map]
  rw [cell_eq_matchSum c6ts c6tax ("Outflow", "Operating", "Food") normRule 0
    (by decide) (by decide)]
  have hfil : c6ts.filter (fun t => decide (t.date = 0) && matchesRule normRule t) =
      [sharedTxn] := by decide
  unfold matchSum
  rw [hfil]
  simp [sharedTxn]

/-- C6 counterexample: under the normal-logic rule
`{categories: {"Grocery"}, labels: {"Shared"}, logic: normal}` the
transaction with the EMPTY label set is NOT included: the bypass disjunct
of the comprehension is `v2['labels'] == set()`, a test of the RULE's
label set (here `{"Shared"}`), not of the transaction's, so the
empty-labeled -10 transaction fails the label filter and the leaf's date-0
bucket holds -50 rather than -60. -/
theorem empty_label_transaction_excluded :
    matchesRule normRule emptyLabelTxn = false
    ∧ (calc_cashflow c6ts c6tax).map (fun tbl => tbl.cell 0 ("Outflow", "Operating", "Food")) =
        .ok (-50 : Rat) :=
  ⟨by decide, c6_cell_value⟩

/-- C6 amended: the `{"Shared"}`-labeled -50 transaction is included, the
`{"Other"}`-labeled -30 transaction is excluded, and the empty-labeled -10
transaction is ALSO excluded — the label filter's bypass applies when the
rule's label set is empty, not when the transaction's is — so the bucket
sums to -50. -/
theorem grocery_label_filter_evaluation :
    matchesRule normRule sharedTxn = true
    ∧ matchesRule normRule otherTxn = false
    ∧ matchesRule normRule emptyLabelTxn = false
    ∧ (calc_cashflow c6ts c6tax).map (fun tbl => tbl.cell 0 ("Outflow", "Operating", "Food")) =
        .ok (-50 : Rat) :=
  ⟨by decide, by decide, by decide, c6_cell_value⟩

def c7totals : List (LeafKey × Rat) :=
  [(("Inflow", "Operating", "Salary"), 1000),
   (("Inflow", "NonOperating", "Interest"), 50),
   (("Outflow", "Operating", "Rent"), -700)]

/-- C7: on the claim's concrete per-leaf totals the statement builder
produces no Total, Net or percentage row at all: the call fails with the
`NameError` on `cashflow_dict` before any computation starts. -/
theorem cashflow_statement_totals_name_error :
    cashflow_statement c7totals "2015" =
      .error "NameError: name cashflow_dict is not defined" := rfl

def c8rule : RawLeafRule := { categories := none, labels := none, logic := none }

def c8tax : Taxonomy := [("Outflow", [("Operating", [("Food", c8rule)])])]

/-- C8 counterexample: on a taxonomy whose only leaf lacks `categories`,
the normalization pass — which only tests and fills `labels` and `logic` —
completes and returns a normalized taxonomy, raising and reporting
nothing; the `KeyError` arises only afterwards, when the classification
comprehension reads `v2['categories']`. -/
theorem missing_categories_normalization_completes :
    normalize_taxonomy c8tax =
      [("Outflow", [("Operating", [("Food",
        { categories := none, labels := some ∅, logic := some "" })])])]
    ∧ collectSeries [] (leaves (normalize_taxonomy c8tax)) = .error "KeyError: categories" :=
  ⟨rfl, rfl⟩

/-- C8 amended: whenever some leaf lacks the required `categories` field,
`calc_cashflow` raises the `KeyError` during the classification
comprehension — after the normalization pass has completed — for every
transaction input, and returns no partial table. -/
theorem calc_cashflow_missing_categories_key_error (ts : List Transaction) (tax : Taxonomy)
    (h : ∃ p ∈ leaves tax, p.2.categories = none) :
    calc_cashflow ts tax = .error "KeyError: categories" := by
  obtain ⟨p, hp, hpc⟩ := h
  have h2 : ∃ q ∈ leaves (normalize_taxonomy tax), q.2.categories = none := by
    rw [leaves_normalize]
    exact ⟨(p.1, normalizeRule p.2), List.mem_map_of_mem _ hp,
      by simpa [normalizeRule] using hpc⟩
  unfold calc_cashflow
  rw [collectSeries_error ts _ h2]

/-- Witness for C8's amended statement on the concrete malformed taxonomy. -/
theorem calc_cashflow_missing_categories_key_error_witness :
    calc_cashflow [] c8tax = .error "KeyError: categories" :=
  calc_cashflow_missing_categories_key_error [] c8tax
    ⟨(("Outflow", "Operating", "Food"), c8rule), by decide, by decide⟩

/-- C9: the normalization pass is idempotent: normalizing an already
normalized taxonomy changes nothing. -/
theorem normalize_taxonomy_idempotent (tax : Taxonomy) :
    normalize_taxonomy (normalize_taxonomy tax) = normalize_taxonomy tax := by
  unfold normalize_taxonomy
  rw [List.map_map]
  apply List.map_congr_left
  rintro ⟨k0, v0⟩ _
  simp only [Function.comp_apply]
  refine congrArg (Prod.mk k0) ?_
  rw [List.map_map]
  apply List.map_congr_left
  rintro ⟨k1, v1⟩ _
  simp only [Function.comp_apply]
  refine congrArg (Prod.mk k1) ?_
  rw [List.map_map]
  apply List.map_congr_left
  rintro ⟨k2, r⟩ _
  simp only [Function.comp_apply]
  exact congrArg (Prod.mk k2) (normalizeRule_idem r)

/-- C10: the only observable change to the caller's taxonomy is the filling
of missing `labels`/`logic` defaults: the key structure is preserved leaf
by leaf, `categories` is never modified, and caller-supplied `labels` and
`logic` values are kept verbatim. (Transactions enter the embedding only
as a read-only argument of pure functions, matching the code, which never
writes to them.) -/
theorem normalize_taxonomy_frame :
    (∀ tax : Taxonomy, leaves (normalize_taxonomy tax) =
        (leaves tax).map fun p => (p.1, normalizeRule p.2))
    ∧ (∀ r : RawLeafRule, (normalizeRule r).categories = r.categories)
    ∧ (∀ (r : RawLeafRule) (l : Finset String), r.labels = some l →
        (normalizeRule r).labels = some l)
    ∧ (∀ (r : RawLeafRule) (g : String), r.logic = some g →
        (normalizeRule r).logic = some g) := by
  refine ⟨leaves_normalize, fun r => rfl, ?_, ?_⟩
  · intro r l h
    simp [normalizeRule, h]
  · intro r g h
    simp [normalizeRule, h]

/-- Witness for C10 at a concrete caller-supplied rule with every optional
field present. -/
theorem normalize_taxonomy_frame_witness :
    (normalizeRule invRule).categories = invRule.categories
    ∧ (normalizeRule invRule).labels = some {"Shared"}
    ∧ (normalizeRule invRule).logic = some "not" :=
  ⟨normalize_taxonomy_frame.2.1 invRule,
   normalize_taxonomy_frame.2.2.1 invRule {"Shared"} rfl,
   normalize_taxonomy_frame.2.2.2 invRule "not" rfl⟩
